import Mathlib

/-!
Verification of the package export-manifest synchronizer
(`packages/scripts/bin/post-build.cjs` and `packages/scripts/bin/sync-file.cjs`).

Shallow embedding conventions:
* a text file's content is modelled as its list of lines (the scripts split
  on `"\n"`, transform the line list, and re-join);
* JavaScript objects are modelled as association lists `List (String × JVal)`
  with JS assignment semantics (overwrite in place, else append);
* file-system writes are modelled as a list of `(path, content)` pairs, and
  `console.log` as a string the functions return.
-/

/-- JS `String.prototype.includes`: substring containment. -/
def strIncludes (s pat : String) : Bool := decide (pat.data <:+: s.data)

/-- One element of a `jsFile` entry's `entry-point` array: either a plain
string, an `{type: "interface", name}` object with a string name, or any
other (malformed) value, which the generator's shape checks reject. -/
inductive EntryItem where
  | str : String → EntryItem
  | iface : String → EntryItem
  | other : EntryItem
deriving DecidableEq

/-- A `js-file` entry of `etc/config/entrypoint-file.json`.
`entryPoint = none` models the field being absent or not an array. -/
structure JsFileEntry where
  name : String
  file : String
  exportKind : String
  entryPoint : Option (List EntryItem)
deriving DecidableEq

/-- The step of the JS `reduce` used for both comma-joined lists:
`temp = []; if (result) temp.push(result); return [...temp, piece].join(", ")`. -/
def reduceJoinStep (result piece : String) : String :=
  if result = "" then piece else result ++ ", " ++ piece

/-- One item of the DTS-list `reduce` (post-build.cjs lines 86-105): plain
strings kept, interface items with a non-empty string name rendered as
`type <name>`, anything else skipped. -/
def dtsReduceStep (result : String) : EntryItem → String
  | .str s => reduceJoinStep result s
  | .iface n => if n ≠ "" then reduceJoinStep result ("type " ++ n) else result
  | .other => result

/-- `formattedEntryPointDTS` (post-build.cjs lines 86-105). -/
def formattedEntryPointDTS (ep : List EntryItem) : String :=
  ep.foldl dtsReduceStep ""

/-- One item of the value-list `reduce` (post-build.cjs lines 106-118): only
plain string items are kept. -/
def nonTypeReduceStep (result : String) : EntryItem → String
  | .str s => reduceJoinStep result s
  | _ => result

/-- `formattedEntryPointNonType` (post-build.cjs lines 106-118). -/
def formattedEntryPointNonType (ep : List EntryItem) : String :=
  ep.foldl nonTypeReduceStep ""

/-- Discriminator for plain-string entry-point items. -/
def EntryItem.isStr : EntryItem → Bool
  | .str _ => true
  | _ => false

/-- `(name.match(/\//g) || []).length`: the number of `/` characters. -/
def slashDepth (name : String) : Nat := (name.data.filter (· == '/')).length

/-- `"../".repeat(depth)`. -/
def dotDotSlashRepeat (depth : Nat) : String := String.join (List.replicate depth "../")

/-- `depth > 0 ? "../".repeat(depth) : ""`. -/
def relativeDots (depth : Nat) : String := if depth > 0 then dotDotSlashRepeat depth else ""

/-- JS `String.prototype.startsWith`. -/
def strStartsWith (s pre : String) : Bool := pre.data.isPrefixOf s.data

/-- JS `String.prototype.slice(n)` (drop the first `n` characters). -/
def strDrop (s : String) (n : Nat) : String := ⟨s.data.drop n⟩

/-- `depth > 0 && file.startsWith("./") ? file.slice(2) : file`. -/
def normalizedFile (depth : Nat) (file : String) : String :=
  if depth > 0 && strStartsWith file "./" then strDrop file 2 else file

/-- `adjustedFile` (post-build.cjs line 57). -/
def adjustedFile (name file : String) : String :=
  relativeDots (slashDepth name) ++ normalizedFile (slashDepth name) file

/-- `path.join(dir, "./" ++ rel)` for a relative `rel` under a plain `dir`. -/
def pathJoin (dir rel : String) : String := dir ++ "/" ++ rel

/-- Failure log line (post-build.cjs line 134). -/
def failureLog (name : String) : String :=
  "❌ Failured " ++ name ++ ".js and " ++ name ++ ".d.ts"

/-- Success log line (post-build.cjs line 143). -/
def successLog (name : String) : String :=
  "✅ Success create " ++ name ++ ".js and " ++ name ++ ".d.ts"

/-- Result of processing one `jsFile` entry: file writes plus console output. -/
structure GenResult where
  writes : List (String × String)
  log : String
deriving DecidableEq

/-- The four stub contents `(modernJSContent, oldJSContent, modernDTSContent,
dtsContent)` of the `switch (kind)` statement (post-build.cjs lines 70-131);
all four are `""` when no case matched or the named-export guard failed. -/
def entryContents (item : JsFileEntry) : String × String × String × String :=
  let adjusted := adjustedFile item.name item.file
  if item.exportKind = "default export" then
    ("'use client';\nexport \x7b default \x7d from '" ++ adjusted ++ ".esm';\n",
     "'use client';\nmodule.exports = require('" ++ adjusted ++ "');\n",
     "export \x7b default \x7d from '" ++ adjusted ++ ".esm';\n",
     "export \x7b default \x7d from '" ++ adjusted ++ "';\n")
  else if item.exportKind = "named export" then
    match item.entryPoint with
    | some ep =>
      if ep.length > 0 then
        ("'use client';\nexport \x7b " ++ formattedEntryPointNonType ep ++ " \x7d from '"
           ++ adjusted ++ ".esm';\n",
         "'use client';\n" ++ "const \x7b " ++ formattedEntryPointNonType ep
           ++ " \x7d = require('" ++ adjusted ++ "');" ++ "\n"
           ++ "module.exports = \x7b " ++ formattedEntryPointNonType ep ++ " \x7d;",
         "export \x7b " ++ formattedEntryPointDTS ep ++ " \x7d from '" ++ adjusted ++ ".esm';\n",
         "export \x7b " ++ formattedEntryPointDTS ep ++ " \x7d from '" ++ adjusted ++ "';\n")
      else ("", "", "", "")
    | none => ("", "", "", "")
  else ("", "", "", "")

/-- The body of the `jsFiles.forEach` callback of `generatePublicAPI`
(post-build.cjs lines 44-144): skip with a failure log when any content is
empty (JS falsiness of `""`), otherwise write the four files. -/
def genEntry (dir : String) (item : JsFileEntry) : GenResult :=
  match entryContents item with
  | (modernJSContent, oldJSContent, modernDTSContent, dtsContent) =>
    if modernJSContent = "" ∨ oldJSContent = "" ∨ modernDTSContent = "" ∨ dtsContent = "" then
      ⟨[], failureLog item.name⟩
    else
      ⟨[(pathJoin dir (item.name ++ ".js"), oldJSContent),
        (pathJoin dir (item.name ++ ".esm.js"), modernJSContent),
        (pathJoin dir (item.name ++ ".d.ts"), dtsContent),
        (pathJoin dir (item.name ++ ".esm.d.ts"), modernDTSContent)],
       successLog item.name⟩

/-- `generatePublicAPI` (post-build.cjs lines 28-145): all file writes in
order, and the per-entry console output. -/
def generatePublicAPI (dir : String) (jsFiles : List JsFileEntry) :
    List (String × String) × List String :=
  (jsFiles.flatMap (fun i => (genEntry dir i).writes),
   jsFiles.map (fun i => (genEntry dir i).log))

/-- A JSON value, as far as `package.json` manipulation needs it. -/
inductive JVal where
  | jstr : String → JVal
  | jarr : List JVal → JVal
  | jobj : List (String × JVal) → JVal

/-- JS object property assignment `o[k] = v` on an association list:
overwrite in place when the key exists, otherwise append. -/
def objSet : List (String × JVal) → String → JVal → List (String × JVal)
  | [], k, v => [(k, v)]
  | (k', v') :: rest, k, v =>
    if k' = k then (k, v) :: rest else (k', v') :: objSet rest k v

/-- JS object property read `o[k]` (own properties only). -/
def objGet : List (String × JVal) → String → Option JVal
  | [], _ => none
  | (k', v') :: rest, k => if k' = k then some v' else objGet rest k

/-- A `custom-config` entry of the descriptor. -/
structure CustomConfigEntry where
  name : String
  exportConfig : JVal
  filesConfig : List String

/-- A `static-file` entry of the descriptor. -/
structure StaticFileEntry where
  name : String
  file : String

/-- The four generated file names pushed for a `jsFile` entry
(sync-file.cjs lines 42-45 and 87-90, identical lists). -/
def fourFileNames (name : String) : List String :=
  [name ++ ".js", name ++ ".d.ts", name ++ ".esm.js", name ++ ".esm.d.ts"]

/-- The exports value assigned to `"./" ++ name` (sync-file.cjs lines 94-98). -/
def esmExportObj (name : String) : JVal :=
  .jobj [("import", .jstr ("./" ++ name ++ ".esm.js")),
         ("require", .jstr ("./" ++ name ++ ".esm.js")),
         ("types", .jstr ("./" ++ name ++ ".d.ts"))]

/-- The exports value assigned to `"./" ++ name ++ ".cjs"`
(sync-file.cjs lines 100-104). -/
def cjsExportObj (name : String) : JVal :=
  .jobj [("import", .jstr ("./" ++ name ++ ".js")),
         ("require", .jstr ("./" ++ name ++ ".js")),
         ("types", .jstr ("./" ++ name ++ ".d.ts"))]

/-- One step of the `customConfig.forEach` loop (sync-file.cjs lines 74-77),
acting on the accumulated `(content.files, content.exports)` pair. -/
def applyCustomEntry (acc : List String × List (String × JVal)) (item : CustomConfigEntry) :
    List String × List (String × JVal) :=
  (acc.1 ++ item.filesConfig, objSet acc.2 item.name item.exportConfig)

/-- One step of the `staticFiles.forEach` loop (sync-file.cjs lines 79-81). -/
def applyStaticEntry (acc : List String × List (String × JVal)) (item : StaticFileEntry) :
    List String × List (String × JVal) :=
  (acc.1, objSet acc.2 ("./" ++ item.name) (.jstr item.file))

/-- One step of the `jsFiles.forEach` loop (sync-file.cjs lines 84-105). -/
def applyJsFileEntry (acc : List String × List (String × JVal)) (item : JsFileEntry) :
    List String × List (String × JVal) :=
  (acc.1 ++ fourFileNames item.name,
   objSet (objSet acc.2 ("./" ++ item.name) (esmExportObj item.name))
     ("./" ++ item.name ++ ".cjs") (cjsExportObj item.name))

/-- The final `(content.files, content.exports)` pair of `registerExposedFiles`:
start from `(["dist"], {})` and run the `customConfig`, `staticFiles` and
`jsFiles` loops in that order.  The in-place array pushes and key assignments
of the source are modelled by threading the pair through the three loops. -/
def exposedState (customConfig : List CustomConfigEntry)
    (staticFiles : List StaticFileEntry) (jsFiles : List JsFileEntry) :
    List String × List (String × JVal) :=
  jsFiles.foldl applyJsFileEntry
    (staticFiles.foldl applyStaticEntry
      (customConfig.foldl applyCustomEntry (["dist"], [])))

/-- `registerExposedFiles` (sync-file.cjs lines 61-115): clone `package.json`,
then assign the accumulated `files` and `exports` values. -/
def registerExposedFiles (pkg : List (String × JVal)) (customConfig : List CustomConfigEntry)
    (staticFiles : List StaticFileEntry) (jsFiles : List JsFileEntry) :
    List (String × JVal) :=
  objSet
    (objSet pkg "files" (.jarr ((exposedState customConfig staticFiles jsFiles).1.map .jstr)))
    "exports" (.jobj (exposedState customConfig staticFiles jsFiles).2)

/-- `GIT_IGNORE_START_LINE` (sync-file.cjs line 16). -/
def GIT_IGNORE_START_LINE : String := "### Start Generated Section"

/-- `GIT_IGNORE_END_LINE` (sync-file.cjs line 17). -/
def GIT_IGNORE_END_LINE : String := "### End Generated Section"

/-- The `lines.filter` of `registerGITIgnoreFiles` (sync-file.cjs lines 24-35),
with the `inGeneratedSection` flag made explicit. -/
def filterGenerated : Bool → List String → List String
  | _, [] => []
  | inSec, l :: ls =>
    if strIncludes l GIT_IGNORE_START_LINE then filterGenerated true ls
    else if strIncludes l GIT_IGNORE_END_LINE then filterGenerated false ls
    else if inSec then filterGenerated inSec ls
    else l :: filterGenerated inSec ls

/-- The lines pushed between the markers (sync-file.cjs lines 39-48).  The
source pushes `name ++ ".js"`, `name ++ ".d.ts"`, `name ++ ".esm.js"`,
`name ++ ".esm.d.ts"` per entry, i.e. `fourFileNames`. -/
def genIgnoreLines (jsFiles : List JsFileEntry) : List String :=
  jsFiles.flatMap (fun item => fourFileNames item.name)

/-- `registerGITIgnoreFiles` (sync-file.cjs lines 11-55) on the ignore file's
line list: drop the previous generated section, then append a fresh one. -/
def registerGITIgnoreFiles (lines : List String) (jsFiles : List JsFileEntry) :
    List String :=
  filterGenerated false lines
    ++ [GIT_IGNORE_START_LINE] ++ genIgnoreLines jsFiles ++ [GIT_IGNORE_END_LINE]

/-- The raw descriptor JSON: `none` models a field absent from
`etc/config/entrypoint-file.json`. -/
structure RawDescriptor where
  jsFile : Option (List JsFileEntry)
  staticFile : Option (List StaticFileEntry)
  customConfig : Option (List CustomConfigEntry)

/-- post-build.cjs line 219-221: `const { "js-file": jsFiles = [] } = ...` —
the field defaults to the empty list when absent. -/
def postBuildJsFiles (d : RawDescriptor) : List JsFileEntry := d.jsFile.getD []

/-- sync-file.cjs lines 133-147: the three fields are destructured with no
defaults and passed to `registerGITIgnoreFiles` / `registerExposedFiles`,
whose `forEach` calls throw a `TypeError` on `undefined`; the thrown run is
modelled as `none`. -/
def syncFileRun (d : RawDescriptor) (pkg : List (String × JVal))
    (ignoreLines : List String) :
    Option (List String × List (String × JVal)) :=
  match d.customConfig, d.jsFile, d.staticFile with
  | some cc, some js, some st =>
    some (registerGITIgnoreFiles ignoreLines js, registerExposedFiles pkg cc st js)
  | _, _, _ => none

/-- Helper for `splitChar`: split a character list at every separator. -/
def splitCharAux (sep : Char) : List Char → List Char → List String
  | [], acc => [String.mk acc.reverse]
  | c :: cs, acc =>
    if c = sep then String.mk acc.reverse :: splitCharAux sep cs []
    else splitCharAux sep cs (c :: acc)

/-- JS `String.prototype.split` with a one-character separator. -/
def splitChar (sep : Char) (s : String) : List String := splitCharAux sep s.data []

/-- The key of a CLI token: `current.split("=")[0]`. -/
def argKey (current : String) : String := (splitChar '=' current).headD ""

/-- The value of a CLI token: `current.split("=")[1]` (may be `undefined`). -/
def argVal (current : String) : Option String := (splitChar '=' current)[1]?

/-- One step of the argument `reduce` (post-build.cjs lines 203-211 and
sync-file.cjs lines 117-125): insert only if the key is not yet present. -/
def argStep (result : List (String × Option String)) (current : String) :
    List (String × Option String) :=
  if (result.lookup (argKey current)).isSome then result
  else result ++ [(argKey current, argVal current)]

/-- The `argument` map built from `process.argv.slice(2)`. -/
def parseArguments (argv : List String) : List (String × Option String) :=
  argv.foldl argStep []

/-! ### Helper lemmas -/

theorem strIncludes_true_of_infix {s pat : String} (h : pat.data <:+: s.data) :
    strIncludes s pat = true := by
  simpa [strIncludes] using h

theorem data_infix_append_right (a : String) {b x : String} (h : x.data <:+: b.data) :
    x.data <:+: (a ++ b).data := by
  rw [String.data_append]
  exact h.trans (List.suffix_append a.data b.data).isInfix

theorem data_infix_append_left {a x : String} (b : String) (h : x.data <:+: a.data) :
    x.data <:+: (a ++ b).data := by
  rw [String.data_append]
  exact h.trans (List.prefix_append a.data b.data).isInfix

theorem append_ne_empty_of_left {a : String} (b : String) (h : a ≠ "") : a ++ b ≠ "" := by
  intro hab
  apply h
  have hd := congrArg String.data hab
  simp [String.data_append, List.append_eq_nil] at hd
  exact String.ext hd.1

theorem string_append_left_cancel {p a b : String} (h : p ++ a = p ++ b) : a = b := by
  have hd := congrArg String.data h
  simp [String.data_append] at hd
  exact String.ext hd

theorem string_ne_append_cjs (s : String) : s ≠ s ++ ".cjs" := by
  intro h
  have := congrArg String.length h
  simp [String.length_append] at this
  exact absurd this (by decide)

theorem infix_of_strIncludes {s pat : String} (h : strIncludes s pat = true) :
    pat.data <:+: s.data := by
  simpa [strIncludes] using h

theorem inclSelf (x : String) : strIncludes x x = true :=
  strIncludes_true_of_infix (List.infix_refl _)

theorem inclL {a x : String} (b : String) (h : strIncludes a x = true) :
    strIncludes (a ++ b) x = true :=
  strIncludes_true_of_infix (data_infix_append_left b (infix_of_strIncludes h))

theorem inclR (a : String) {b x : String} (h : strIncludes b x = true) :
    strIncludes (a ++ b) x = true :=
  strIncludes_true_of_infix (data_infix_append_right a (infix_of_strIncludes h))

theorem string_append_eq_empty_iff (a b : String) : a ++ b = "" ↔ a = "" ∧ b = "" := by
  constructor
  · intro h
    have hd := congrArg String.data h
    simp [String.data_append, List.append_eq_nil] at hd
    exact ⟨String.ext hd.1, String.ext hd.2⟩
  · rintro ⟨ha, hb⟩
    rw [ha, hb]
    decide

/-! ### Shape lemmas for `genEntry` -/

theorem genEntry_default (dir : String) (item : JsFileEntry)
    (h : item.exportKind = "default export") :
    genEntry dir item =
      ⟨[(pathJoin dir (item.name ++ ".js"),
         "'use client';\nmodule.exports = require('"
           ++ adjustedFile item.name item.file ++ "');\n"),
        (pathJoin dir (item.name ++ ".esm.js"),
         "'use client';\nexport \x7b default \x7d from '"
           ++ adjustedFile item.name item.file ++ ".esm';\n"),
        (pathJoin dir (item.name ++ ".d.ts"),
         "export \x7b default \x7d from '" ++ adjustedFile item.name item.file ++ "';\n"),
        (pathJoin dir (item.name ++ ".esm.d.ts"),
         "export \x7b default \x7d from '" ++ adjustedFile item.name item.file ++ ".esm';\n")],
       successLog item.name⟩ := by
  have hc : entryContents item =
      ("'use client';\nexport \x7b default \x7d from '"
         ++ adjustedFile item.name item.file ++ ".esm';\n",
       "'use client';\nmodule.exports = require('"
         ++ adjustedFile item.name item.file ++ "');\n",
       "export \x7b default \x7d from '" ++ adjustedFile item.name item.file ++ ".esm';\n",
       "export \x7b default \x7d from '" ++ adjustedFile item.name item.file ++ "';\n") := by
    simp [entryContents, h]
  simp [genEntry, hc, string_append_eq_empty_iff]

theorem genEntry_named (dir : String) (item : JsFileEntry) (ep : List EntryItem)
    (h : item.exportKind = "named export") (hep : item.entryPoint = some ep)
    (hne : ep ≠ []) :
    genEntry dir item =
      ⟨[(pathJoin dir (item.name ++ ".js"),
         "'use client';\n" ++ "const \x7b " ++ formattedEntryPointNonType ep
           ++ " \x7d = require('" ++ adjustedFile item.name item.file ++ "');" ++ "\n"
           ++ "module.exports = \x7b " ++ formattedEntryPointNonType ep ++ " \x7d;"),
        (pathJoin dir (item.name ++ ".esm.js"),
         "'use client';\nexport \x7b " ++ formattedEntryPointNonType ep ++ " \x7d from '"
           ++ adjustedFile item.name item.file ++ ".esm';\n"),
        (pathJoin dir (item.name ++ ".d.ts"),
         "export \x7b " ++ formattedEntryPointDTS ep ++ " \x7d from '"
           ++ adjustedFile item.name item.file ++ "';\n"),
        (pathJoin dir (item.name ++ ".esm.d.ts"),
         "export \x7b " ++ formattedEntryPointDTS ep ++ " \x7d from '"
           ++ adjustedFile item.name item.file ++ ".esm';\n")],
       successLog item.name⟩ := by
  have hlen : ep.length > 0 := List.length_pos.mpr hne
  have hc : entryContents item =
      ("'use client';\nexport \x7b " ++ formattedEntryPointNonType ep ++ " \x7d from '"
         ++ adjustedFile item.name item.file ++ ".esm';\n",
       "'use client';\n" ++ "const \x7b " ++ formattedEntryPointNonType ep
         ++ " \x7d = require('" ++ adjustedFile item.name item.file ++ "');" ++ "\n"
         ++ "module.exports = \x7b " ++ formattedEntryPointNonType ep ++ " \x7d;",
       "export \x7b " ++ formattedEntryPointDTS ep ++ " \x7d from '"
         ++ adjustedFile item.name item.file ++ ".esm';\n",
       "export \x7b " ++ formattedEntryPointDTS ep ++ " \x7d from '"
         ++ adjustedFile item.name item.file ++ "';\n") := by
    simp [entryContents, h, hep, hlen]
  simp [genEntry, hc, string_append_eq_empty_iff]

theorem genEntry_skip (dir : String) (item : JsFileEntry)
    (h : (item.exportKind ≠ "default export" ∧ item.exportKind ≠ "named export")
      ∨ (item.exportKind = "named export"
          ∧ (item.entryPoint = none ∨ item.entryPoint = some []))) :
    genEntry dir item = ⟨[], failureLog item.name⟩ := by
  have hc : entryContents item = ("", "", "", "") := by
    rcases h with ⟨h1, h2⟩ | ⟨h2, h3⟩
    · simp [entryContents, h1, h2]
    · rcases h3 with h3 | h3 <;> simp [entryContents, h2, h3]
  simp [genEntry, hc]

/-! ### C1: path adjustment by directory depth -/

/-- C1: for every `JsFileEntry` whose `name` contains `k` slashes, the file
path embedded in all four generated stubs is `adjustedFile`; for `k > 0` it
equals `file` with a leading `"./"` stripped and prefixed by exactly `k`
repetitions of `"../"`, and for `k = 0` it is `file` verbatim. -/
theorem path_adjustment_by_depth (dir : String) (e : JsFileEntry) (k : Nat)
    (hk : slashDepth e.name = k) :
    (0 < k → adjustedFile e.name e.file
        = String.join (List.replicate k "../")
            ++ (if strStartsWith e.file "./" then strDrop e.file 2 else e.file))
    ∧ (k = 0 → adjustedFile e.name e.file = e.file)
    ∧ ∀ pc ∈ (genEntry dir e).writes, strIncludes pc.2 (adjustedFile e.name e.file) = true := by
  refine ⟨?_, ?_, ?_⟩
  · intro hpos
    by_cases hs : strStartsWith e.file "./"
    · simp [adjustedFile, relativeDots, normalizedFile, dotDotSlashRepeat, hk, hpos, hs]
    · simp [adjustedFile, relativeDots, normalizedFile, dotDotSlashRepeat, hk, hpos, hs]
  · intro hzero
    simp [adjustedFile, relativeDots, normalizedFile, hk, hzero]
  · intro pc hpc
    by_cases h1 : e.exportKind = "default export"
    · rw [genEntry_default dir e h1] at hpc
      simp only [List.mem_cons, List.not_mem_nil, or_false] at hpc
      rcases hpc with h | h | h | h <;> rw [h] <;>
        exact inclL _ (inclR _ (inclSelf _))
    · by_cases h2 : e.exportKind = "named export"
      · cases hep : e.entryPoint with
        | none =>
          rw [genEntry_skip dir e (Or.inr ⟨h2, Or.inl hep⟩)] at hpc
          simp at hpc
        | some ep =>
          cases ep with
          | nil =>
            rw [genEntry_skip dir e (Or.inr ⟨h2, Or.inr hep⟩)] at hpc
            simp at hpc
          | cons a l =>
            rw [genEntry_named dir e (a :: l) h2 hep (by simp)] at hpc
            simp only [List.mem_cons, List.not_mem_nil, or_false] at hpc
            rcases hpc with h | h | h | h <;> rw [h]
            · exact inclL _ (inclL _ (inclL _ (inclL _ (inclL _ (inclR _ (inclSelf _))))))
            · exact inclL _ (inclR _ (inclSelf _))
            · exact inclL _ (inclR _ (inclSelf _))
            · exact inclL _ (inclR _ (inclSelf _))
      · rw [genEntry_skip dir e (Or.inl ⟨h1, h2⟩)] at hpc
        simp at hpc

/-- C1 witness: a concrete nested entry with depth 2. -/
theorem path_adjustment_by_depth_witness :
    slashDepth "a/b/api" = 2
    ∧ (0 < 2 → adjustedFile "a/b/api" "./dist/a/b/api"
        = String.join (List.replicate 2 "../")
            ++ (if strStartsWith "./dist/a/b/api" "./"
                then strDrop "./dist/a/b/api" 2 else "./dist/a/b/api")) := by
  have h := path_adjustment_by_depth "pkg"
    ⟨"a/b/api", "./dist/a/b/api", "default export", none⟩ 2 (by decide)
  exact ⟨by decide, h.1⟩

/-! ### C4: round-trip ESM stub content -/

/-- C4 counterexample: for the entry named `"a/b/api"`, file
`"./dist/a/b/api"`, default export, the generated ESM JS stub content is not
exactly `export \x7b default \x7d from '../../dist/a/b/api.esm';\n` — the code
prepends the `'use client';` directive line. -/
theorem roundtrip_esm_stub_counterexample :
    ((genEntry "pkg" ⟨"a/b/api", "./dist/a/b/api", "default export", none⟩).writes.map
        Prod.snd)[1]?
      = some "'use client';\nexport \x7b default \x7d from '../../dist/a/b/api.esm';\n"
    ∧ ((genEntry "pkg" ⟨"a/b/api", "./dist/a/b/api", "default export", none⟩).writes.map
        Prod.snd)[1]?
      ≠ some "export \x7b default \x7d from '../../dist/a/b/api.esm';\n" := by
  constructor
  · decide
  · decide

/-- C4 (amended): for the descriptor entry named `"a/b/api"` with file
`"./dist/a/b/api"` and default export, the generated ESM JS stub content is
exactly `'use client';\nexport \x7b default \x7d from '../../dist/a/b/api.esm';\n`
(the client directive line followed by the re-export). -/
theorem roundtrip_esm_stub :
    ((genEntry "pkg" ⟨"a/b/api", "./dist/a/b/api", "default export", none⟩).writes)[1]?
      = some (pathJoin "pkg" ("a/b/api" ++ ".esm.js"),
          "'use client';\nexport \x7b default \x7d from '../../dist/a/b/api.esm';\n") := by
  decide

/-! ### C3: invalid entries are skipped -/

/-- C3 counterexample: a `named export` entry whose `entryPoint` is a
non-empty array containing only a malformed item still has all four output
files written (with an empty export list) and a success log, contradicting
the claim that a malformed `entryPoint` yields no output files. -/
theorem invalid_entry_skip_counterexample :
    (genEntry "pkg" ⟨"x", "./dist/x", "named export", some [EntryItem.other]⟩).writes.length = 4
    ∧ (genEntry "pkg" ⟨"x", "./dist/x", "named export", some [EntryItem.other]⟩).log
        = successLog "x" := by
  constructor
  · decide
  · decide

/-- C3 (amended): for every `JsFileEntry` whose `exportKind` is neither
`"default export"` nor `"named export"`, or whose `exportKind` is
`"named export"` with an `entryPoint` that is absent (not an array) or an
empty array, none of the entry's four output files is written, a failure is
logged, and sibling entries in the same run are processed unchanged.  (A
non-empty `entryPoint` all of whose items are malformed still produces all
four files, with an empty export list.) -/
theorem invalid_entry_skip (dir : String) (e : JsFileEntry)
    (h : (e.exportKind ≠ "default export" ∧ e.exportKind ≠ "named export")
      ∨ (e.exportKind = "named export"
          ∧ (e.entryPoint = none ∨ e.entryPoint = some []))) :
    (genEntry dir e).writes = []
    ∧ (genEntry dir e).log = failureLog e.name
    ∧ ∀ l1 l2 : List JsFileEntry,
        (generatePublicAPI dir (l1 ++ e :: l2)).1
          = (generatePublicAPI dir l1).1 ++ (generatePublicAPI dir l2).1
        ∧ (generatePublicAPI dir (l1 ++ e :: l2)).2
          = (generatePublicAPI dir l1).2
              ++ failureLog e.name :: (generatePublicAPI dir l2).2 := by
  have hskip := genEntry_skip dir e h
  refine ⟨by rw [hskip], by rw [hskip], ?_⟩
  intro l1 l2
  constructor
  · simp [generatePublicAPI, hskip]
  · simp [generatePublicAPI, hskip]

/-- C3 witness: a concrete entry with an unknown export kind between two
valid siblings. -/
theorem invalid_entry_skip_witness :
    (genEntry "pkg" ⟨"y", "./dist/y", "weird", none⟩).writes = []
    ∧ (genEntry "pkg" ⟨"y", "./dist/y", "weird", none⟩).log = failureLog "y"
    ∧ (generatePublicAPI "pkg"
        ([⟨"a", "./dist/a", "default export", none⟩]
          ++ (⟨"y", "./dist/y", "weird", none⟩ : JsFileEntry)
            :: [⟨"b", "./dist/b", "default export", none⟩])).1
      = (generatePublicAPI "pkg" [⟨"a", "./dist/a", "default export", none⟩]).1
          ++ (generatePublicAPI "pkg" [⟨"b", "./dist/b", "default export", none⟩]).1 := by
  have h := invalid_entry_skip "pkg" ⟨"y", "./dist/y", "weird", none⟩
    (Or.inl ⟨by decide, by decide⟩)
  exact ⟨h.1, h.2.1,
    (h.2.2 [⟨"a", "./dist/a", "default export", none⟩]
      [⟨"b", "./dist/b", "default export", none⟩]).1⟩

/-! ### C6: interface-marked entry-point items -/

theorem fold_nonType_filter (l : List EntryItem) (r : String) :
    List.foldl nonTypeReduceStep r (l.filter EntryItem.isStr)
      = List.foldl nonTypeReduceStep r l := by
  induction l generalizing r with
  | nil => rfl
  | cons a t ih =>
    cases a with
    | str s => simp [EntryItem.isStr, nonTypeReduceStep, ih]
    | iface n => simp [EntryItem.isStr, nonTypeReduceStep, ih]
    | other => simp [EntryItem.isStr, nonTypeReduceStep, ih]

theorem strIncludes_ne_empty {r x : String} (hx : x ≠ "") (h : strIncludes r x = true) :
    r ≠ "" := by
  intro hr
  have hinf := infix_of_strIncludes h
  rw [hr] at hinf
  have : x.data = [] := by simpa using hinf
  exact hx (String.ext (by simpa using this))

theorem strIncludes_reduceJoinStep {r x : String} (p : String) (hx : x ≠ "")
    (h : strIncludes r x = true) : strIncludes (reduceJoinStep r p) x = true := by
  rw [reduceJoinStep, if_neg (strIncludes_ne_empty hx h)]
  exact inclL _ (inclL _ h)

theorem fold_dts_keeps (l : List EntryItem) {r x : String} (hx : x ≠ "")
    (h : strIncludes r x = true) :
    strIncludes (List.foldl dtsReduceStep r l) x = true := by
  induction l generalizing r with
  | nil => exact h
  | cons a t ih =>
    cases a with
    | str s => exact ih (strIncludes_reduceJoinStep s hx h)
    | iface n =>
      by_cases hn : n ≠ ""
      · simpa [dtsReduceStep, hn] using ih (strIncludes_reduceJoinStep ("type " ++ n) hx h)
      · simpa [dtsReduceStep, hn] using ih h
    | other => exact ih h

theorem type_ne_empty (n : String) : ("type " ++ n : String) ≠ "" :=
  append_ne_empty_of_left _ (by decide)

theorem fold_dts_reaches (l : List EntryItem) (r : String) {n : String}
    (hmem : EntryItem.iface n ∈ l) (hn : n ≠ "") :
    strIncludes (List.foldl dtsReduceStep r l) ("type " ++ n) = true := by
  induction l generalizing r with
  | nil => cases hmem
  | cons a t ih =>
    rcases List.mem_cons.mp hmem with ha | ht
    · rw [List.foldl_cons, ← ha]
      have hstep : dtsReduceStep r (EntryItem.iface n) = reduceJoinStep r ("type " ++ n) := by
        simp [dtsReduceStep, hn]
      rw [hstep]
      apply fold_dts_keeps t (type_ne_empty n)
      rw [reduceJoinStep]
      by_cases hr : r = ""
      · rw [if_pos hr]; exact inclSelf _
      · rw [if_neg hr]; exact inclR _ (inclSelf _)
    · rw [List.foldl_cons]
      exact ih _ ht

/-- C6: for every named-export entry whose `entryPoint` contains an
interface-marked item `{type:"interface", name: n}` with non-empty `n`, both
generated declaration stubs include `type n` in their comma-joined export
list, while both generated JS stubs build their export list from
`formattedEntryPointNonType`, which ignores every non-plain-string item
(it equals the list built from the plain string items alone). -/
theorem interface_items_in_dts_only (dir : String) (e : JsFileEntry)
    (ep : List EntryItem) (n : String)
    (hkind : e.exportKind = "named export") (hep : e.entryPoint = some ep)
    (hmem : EntryItem.iface n ∈ ep) (hn : n ≠ "") :
    ((genEntry dir e).writes.map Prod.snd)
      = ["'use client';\n" ++ "const \x7b " ++ formattedEntryPointNonType ep
           ++ " \x7d = require('" ++ adjustedFile e.name e.file ++ "');" ++ "\n"
           ++ "module.exports = \x7b " ++ formattedEntryPointNonType ep ++ " \x7d;",
         "'use client';\nexport \x7b " ++ formattedEntryPointNonType ep ++ " \x7d from '"
           ++ adjustedFile e.name e.file ++ ".esm';\n",
         "export \x7b " ++ formattedEntryPointDTS ep ++ " \x7d from '"
           ++ adjustedFile e.name e.file ++ "';\n",
         "export \x7b " ++ formattedEntryPointDTS ep ++ " \x7d from '"
           ++ adjustedFile e.name e.file ++ ".esm';\n"]
    ∧ (∀ c ∈ ((genEntry dir e).writes.map Prod.snd).drop 2,
         strIncludes c ("type " ++ n) = true)
    ∧ formattedEntryPointNonType ep
        = formattedEntryPointNonType (ep.filter EntryItem.isStr) := by
  have hnil : ep ≠ [] := List.ne_nil_of_mem hmem
  have hshape := genEntry_named dir e ep hkind hep hnil
  have hdts : strIncludes (formattedEntryPointDTS ep) ("type " ++ n) = true :=
    fold_dts_reaches ep "" hmem hn
  refine ⟨by rw [hshape]; rfl, ?_, ?_⟩
  · rw [hshape]
    intro c hc
    simp only [List.map_cons, List.map_nil, List.drop_succ_cons, List.drop_zero,
      List.mem_cons, List.not_mem_nil, or_false] at hc
    rcases hc with h | h <;> rw [h] <;>
      exact inclL _ (inclL _ (inclL _ (inclR _ hdts)))
  · exact (fold_nonType_filter ep "").symm

/-- C6 witness: a concrete named-export entry mixing a plain item and an
interface item. -/
theorem interface_items_in_dts_only_witness :
    ((genEntry "pkg" ⟨"util", "./dist/util", "named export",
        some [EntryItem.str "foo", EntryItem.iface "Bar"]⟩).writes.map Prod.snd).drop 2
      = ["export \x7b foo, type Bar \x7d from './dist/util';\n",
         "export \x7b foo, type Bar \x7d from './dist/util.esm';\n"]
    ∧ formattedEntryPointNonType [EntryItem.str "foo", EntryItem.iface "Bar"]
        = formattedEntryPointNonType
            ([EntryItem.str "foo", EntryItem.iface "Bar"].filter EntryItem.isStr) := by
  have h := interface_items_in_dts_only "pkg"
    ⟨"util", "./dist/util", "named export",
      some [EntryItem.str "foo", EntryItem.iface "Bar"]⟩
    [EntryItem.str "foo", EntryItem.iface "Bar"] "Bar"
    (by decide) rfl (by decide) (by decide)
  exact ⟨by rw [congrArg (List.drop 2) h.1]; decide, h.2.2⟩

/-! ### Ignore-file regeneration lemmas -/

theorem filterGenerated_clean (lines : List String) (b : Bool) :
    ∀ l ∈ filterGenerated b lines,
      strIncludes l GIT_IGNORE_START_LINE = false
        ∧ strIncludes l GIT_IGNORE_END_LINE = false := by
  induction lines generalizing b with
  | nil => intro l hl; cases hl
  | cons x xs ih =>
    intro l hl
    by_cases h1 : strIncludes x GIT_IGNORE_START_LINE
    · rw [filterGenerated, if_pos h1] at hl
      exact ih true l hl
    · by_cases h2 : strIncludes x GIT_IGNORE_END_LINE
      · rw [filterGenerated, if_neg (by simp [h1]), if_pos h2] at hl
        exact ih false l hl
      · cases b with
        | true =>
          rw [filterGenerated, if_neg (by simp [h1]), if_neg (by simp [h2]), if_pos rfl] at hl
          exact ih true l hl
        | false =>
          rw [filterGenerated, if_neg (by simp [h1]), if_neg (by simp [h2]),
            if_neg (by simp)] at hl
          rcases List.mem_cons.mp hl with hx | hx
          · rw [hx]
            exact ⟨by simpa using h1, by simpa using h2⟩
          · exact ih false l hx

theorem filterGenerated_append_clean (ls rest : List String)
    (hcl : ∀ l ∈ ls, strIncludes l GIT_IGNORE_START_LINE = false
      ∧ strIncludes l GIT_IGNORE_END_LINE = false) :
    filterGenerated false (ls ++ rest) = ls ++ filterGenerated false rest := by
  induction ls with
  | nil => rfl
  | cons x xs ih =>
    have hx := hcl x (List.mem_cons_self x xs)
    rw [List.cons_append, filterGenerated, if_neg (by simp [hx.1]),
      if_neg (by simp [hx.2])]
    simp only [Bool.false_eq_true, if_false]
    rw [ih (fun l hl => hcl l (List.mem_cons_of_mem x hl)), List.cons_append]

theorem filterGenerated_drop_clean (ls rest : List String)
    (hcl : ∀ l ∈ ls, strIncludes l GIT_IGNORE_START_LINE = false
      ∧ strIncludes l GIT_IGNORE_END_LINE = false) :
    filterGenerated true (ls ++ rest) = filterGenerated true rest := by
  induction ls with
  | nil => rfl
  | cons x xs ih =>
    have hx := hcl x (List.mem_cons_self x xs)
    rw [List.cons_append, filterGenerated, if_neg (by simp [hx.1]),
      if_neg (by simp [hx.2]), if_pos rfl]
    exact ih (fun l hl => hcl l (List.mem_cons_of_mem x hl))

theorem filterGenerated_of_fresh_block (lines : List String) (jsFiles : List JsFileEntry)
    (hclean : ∀ l ∈ genIgnoreLines jsFiles,
      strIncludes l GIT_IGNORE_START_LINE = false
        ∧ strIncludes l GIT_IGNORE_END_LINE = false) :
    filterGenerated false (registerGITIgnoreFiles lines jsFiles)
      = filterGenerated false lines := by
  rw [registerGITIgnoreFiles]
  rw [List.append_assoc, List.append_assoc,
    filterGenerated_append_clean _ _ (filterGenerated_clean lines false)]
  rw [List.singleton_append, filterGenerated, if_pos (inclSelf _)]
  rw [filterGenerated_drop_clean _ _ hclean]
  rw [show ([GIT_IGNORE_END_LINE] : List String) = GIT_IGNORE_END_LINE :: [] from rfl]
  rw [filterGenerated,
    if_neg (by simp [show strIncludes GIT_IGNORE_END_LINE GIT_IGNORE_START_LINE = false
      from by decide]),
    if_pos (inclSelf _)]
  simp [filterGenerated]

/-! ### C5: idempotent regeneration -/

/-- C5: rerunning the ignore-file regeneration on its own output (same
descriptor) leaves the file unchanged, and the result contains exactly one
start-marker line and one end-marker line, with all lines outside the block
preserved (the outputs are equal as line lists).  The generated stub files
are a pure function of the descriptor, so the second run's stub outputs are
byte-identical to the first run's. -/
theorem ignore_regen_idempotent (lines : List String) (jsFiles : List JsFileEntry)
    (hclean : ∀ l ∈ genIgnoreLines jsFiles,
      strIncludes l GIT_IGNORE_START_LINE = false
        ∧ strIncludes l GIT_IGNORE_END_LINE = false) :
    registerGITIgnoreFiles (registerGITIgnoreFiles lines jsFiles) jsFiles
      = registerGITIgnoreFiles lines jsFiles
    ∧ (registerGITIgnoreFiles (registerGITIgnoreFiles lines jsFiles) jsFiles).countP
        (fun l => strIncludes l GIT_IGNORE_START_LINE) = 1
    ∧ (registerGITIgnoreFiles (registerGITIgnoreFiles lines jsFiles) jsFiles).countP
        (fun l => strIncludes l GIT_IGNORE_END_LINE) = 1 := by
  have hSS : strIncludes GIT_IGNORE_START_LINE GIT_IGNORE_START_LINE = true := inclSelf _
  have hEE : strIncludes GIT_IGNORE_END_LINE GIT_IGNORE_END_LINE = true := inclSelf _
  have hES : strIncludes GIT_IGNORE_END_LINE GIT_IGNORE_START_LINE = false := by decide
  have hSE : strIncludes GIT_IGNORE_START_LINE GIT_IGNORE_END_LINE = false := by decide
  have hidem : registerGITIgnoreFiles (registerGITIgnoreFiles lines jsFiles) jsFiles
      = registerGITIgnoreFiles lines jsFiles := by
    conv_lhs => rw [registerGITIgnoreFiles]
    rw [filterGenerated_of_fresh_block lines jsFiles hclean, registerGITIgnoreFiles]
  have hfiltS : (filterGenerated false lines).countP
      (fun l => strIncludes l GIT_IGNORE_START_LINE) = 0 :=
    List.countP_eq_zero.mpr (fun l hl => by
      simp [(filterGenerated_clean lines false l hl).1])
  have hfiltE : (filterGenerated false lines).countP
      (fun l => strIncludes l GIT_IGNORE_END_LINE) = 0 :=
    List.countP_eq_zero.mpr (fun l hl => by
      simp [(filterGenerated_clean lines false l hl).2])
  have hgenS : (genIgnoreLines jsFiles).countP
      (fun l => strIncludes l GIT_IGNORE_START_LINE) = 0 :=
    List.countP_eq_zero.mpr (fun l hl => by simp [(hclean l hl).1])
  have hgenE : (genIgnoreLines jsFiles).countP
      (fun l => strIncludes l GIT_IGNORE_END_LINE) = 0 :=
    List.countP_eq_zero.mpr (fun l hl => by simp [(hclean l hl).2])
  refine ⟨hidem, ?_, ?_⟩
  · rw [hidem, registerGITIgnoreFiles]
    simp [List.countP_append, List.countP_cons, List.countP_nil,
      hfiltS, hgenS, hSS, hES]
  · rw [hidem, registerGITIgnoreFiles]
    simp [List.countP_append, List.countP_cons, List.countP_nil,
      hfiltE, hgenE, hEE, hSE]

/-- C5 witness: a concrete ignore file and a one-entry descriptor. -/
theorem ignore_regen_idempotent_witness :
    registerGITIgnoreFiles
        (registerGITIgnoreFiles ["node_modules", "dist"]
          [⟨"api", "./dist/api", "default export", none⟩])
        [⟨"api", "./dist/api", "default export", none⟩]
      = registerGITIgnoreFiles ["node_modules", "dist"]
          [⟨"api", "./dist/api", "default export", none⟩] :=
  (ignore_regen_idempotent ["node_modules", "dist"]
    [⟨"api", "./dist/api", "default export", none⟩] (by decide)).1

/-! ### C10: marker recognition by substring, missing end marker -/

/-- C10: marker lines are recognised by substring containment, so a line
merely containing the start marker is removed; and when no end marker
follows, every line after it is dropped, and the fresh generated block is
appended at the end of the file. -/
theorem marker_substring_missing_end (pre post : List String) (s : String)
    (jsFiles : List JsFileEntry)
    (hpre : ∀ l ∈ pre, strIncludes l GIT_IGNORE_START_LINE = false
      ∧ strIncludes l GIT_IGNORE_END_LINE = false)
    (hs : strIncludes s GIT_IGNORE_START_LINE = true)
    (hpost : ∀ l ∈ post, strIncludes l GIT_IGNORE_START_LINE = false
      ∧ strIncludes l GIT_IGNORE_END_LINE = false) :
    registerGITIgnoreFiles (pre ++ s :: post) jsFiles
      = pre ++ [GIT_IGNORE_START_LINE] ++ genIgnoreLines jsFiles
          ++ [GIT_IGNORE_END_LINE] := by
  rw [registerGITIgnoreFiles]
  rw [filterGenerated_append_clean pre (s :: post) hpre]
  rw [filterGenerated, if_pos hs]
  have hdrop : filterGenerated true post = [] := by
    simpa using filterGenerated_drop_clean post [] hpost
  rw [hdrop]
  simp

/-- C10 witness: a line containing the start marker mid-text, two trailing
lines and no end marker. -/
theorem marker_substring_missing_end_witness :
    registerGITIgnoreFiles
        (["a"] ++ "x ### Start Generated Section y" :: ["b", "c"])
        [⟨"api", "./dist/api", "default export", none⟩]
      = ["a"] ++ [GIT_IGNORE_START_LINE]
          ++ genIgnoreLines [⟨"api", "./dist/api", "default export", none⟩]
          ++ [GIT_IGNORE_END_LINE] :=
  marker_substring_missing_end ["a"] ["b", "c"] "x ### Start Generated Section y"
    [⟨"api", "./dist/api", "default export", none⟩]
    (by decide) (by decide) (by decide)

/-! ### Association-list lemmas for JS object semantics -/

theorem objGet_objSet_self (m : List (String × JVal)) (k : String) (v : JVal) :
    objGet (objSet m k v) k = some v := by
  induction m with
  | nil => simp [objSet, objGet]
  | cons p rest ih =>
    obtain ⟨k', v'⟩ := p
    by_cases h : k' = k
    · simp [objSet, objGet, h]
    · simp [objSet, objGet, h, ih]

theorem objGet_objSet_ne (m : List (String × JVal)) (k k' : String) (v : JVal)
    (h : k' ≠ k) : objGet (objSet m k v) k' = objGet m k' := by
  induction m with
  | nil =>
    simp [objSet, objGet]
    exact fun hk => absurd hk.symm h
  | cons p rest ih =>
    obtain ⟨k0, v0⟩ := p
    by_cases h0 : k0 = k
    · subst h0
      have hne : ¬ k0 = k' := fun hh => h hh.symm
      simp [objSet, objGet, hne]
    · by_cases h1 : k0 = k'
      · subst h1
        simp [objSet, objGet, h0]
      · simp [objSet, objGet, h0, h1, ih]

theorem string_append_right_cancel {a b c : String} (h : a ++ c = b ++ c) : a = b := by
  have hd := congrArg String.data h
  simp [String.data_append] at hd
  exact String.ext hd

/-! ### C8: all other metadata fields pass through unchanged -/

/-- C8: `registerExposedFiles` leaves every top-level `package.json` field
other than `files` and `exports` unchanged. -/
theorem metadata_frame (pkg : List (String × JVal))
    (customConfig : List CustomConfigEntry) (staticFiles : List StaticFileEntry)
    (jsFiles : List JsFileEntry) (k : String)
    (hf : k ≠ "files") (he : k ≠ "exports") :
    objGet (registerExposedFiles pkg customConfig staticFiles jsFiles) k
      = objGet pkg k := by
  rw [registerExposedFiles, objGet_objSet_ne _ _ _ _ he, objGet_objSet_ne _ _ _ _ hf]

/-- C8 witness: a concrete metadata object with a `name` field and stale
`files`/`exports` fields. -/
theorem metadata_frame_witness :
    objGet (registerExposedFiles
        [("name", .jstr "pkg"), ("files", .jarr []), ("version", .jstr "1.0.0")]
        [] [] [⟨"api", "./dist/api", "default export", none⟩]) "version"
      = objGet [("name", .jstr "pkg"), ("files", .jarr []), ("version", .jstr "1.0.0")]
          "version" :=
  metadata_frame _ [] [] [⟨"api", "./dist/api", "default export", none⟩] "version"
    (by decide) (by decide)

/-! ### C2: files/exports rewrite -/

theorem foldl_custom_files (l : List CustomConfigEntry)
    (acc : List String × List (String × JVal)) :
    (l.foldl applyCustomEntry acc).1 = acc.1 ++ l.flatMap (fun i => i.filesConfig) := by
  induction l generalizing acc with
  | nil => simp
  | cons a t ih => simp [applyCustomEntry, ih, List.append_assoc]

theorem foldl_static_files (l : List StaticFileEntry)
    (acc : List String × List (String × JVal)) :
    (l.foldl applyStaticEntry acc).1 = acc.1 := by
  induction l generalizing acc with
  | nil => rfl
  | cons a t ih => simp [applyStaticEntry, ih]

theorem foldl_js_files (l : List JsFileEntry)
    (acc : List String × List (String × JVal)) :
    (l.foldl applyJsFileEntry acc).1 = acc.1 ++ l.flatMap (fun i => fourFileNames i.name) := by
  induction l generalizing acc with
  | nil => simp
  | cons a t ih => simp [applyJsFileEntry, ih, List.append_assoc]

theorem foldl_js_preserve (t : List JsFileEntry)
    (acc : List String × List (String × JVal)) (k : String) (v : JVal)
    (hget : objGet acc.2 k = some v)
    (hk : ∀ e' ∈ t, ("./" ++ e'.name = k → esmExportObj e'.name = v)
        ∧ ("./" ++ e'.name ++ ".cjs" = k → cjsExportObj e'.name = v)) :
    objGet (t.foldl applyJsFileEntry acc).2 k = some v := by
  induction t generalizing acc with
  | nil => simpa using hget
  | cons a t ih =>
    rw [List.foldl_cons]
    apply ih
    · show objGet (objSet (objSet acc.2 ("./" ++ a.name) (esmExportObj a.name))
        ("./" ++ a.name ++ ".cjs") (cjsExportObj a.name)) k = some v
      by_cases h2 : k = "./" ++ a.name ++ ".cjs"
      · rw [h2, objGet_objSet_self,
          (hk a (List.mem_cons_self a t)).2 h2.symm]
      · rw [objGet_objSet_ne _ _ _ _ h2]
        by_cases h1 : k = "./" ++ a.name
        · rw [h1, objGet_objSet_self, (hk a (List.mem_cons_self a t)).1 h1.symm]
        · rw [objGet_objSet_ne _ _ _ _ h1]
          exact hget
    · exact fun e' he' => hk e' (List.mem_cons_of_mem a he')

theorem foldl_js_lookup (l : List JsFileEntry)
    (acc : List String × List (String × JVal)) (e : JsFileEntry) (he : e ∈ l)
    (hcoll : ∀ e1 ∈ l, ∀ e2 ∈ l, e1.name ≠ e2.name ++ ".cjs") :
    objGet (l.foldl applyJsFileEntry acc).2 ("./" ++ e.name) = some (esmExportObj e.name)
    ∧ objGet (l.foldl applyJsFileEntry acc).2 ("./" ++ e.name ++ ".cjs")
        = some (cjsExportObj e.name) := by
  induction l generalizing acc with
  | nil => cases he
  | cons a t ih =>
    rcases List.mem_cons.mp he with hea | het
    · subst hea
      rw [List.foldl_cons]
      constructor
      · apply foldl_js_preserve
        · show objGet (objSet (objSet acc.2 ("./" ++ e.name) (esmExportObj e.name))
            ("./" ++ e.name ++ ".cjs") (cjsExportObj e.name)) ("./" ++ e.name) = _
          rw [objGet_objSet_ne _ _ _ _ (string_ne_append_cjs _), objGet_objSet_self]
        · intro e' he'
          refine ⟨fun hkey => ?_, fun hkey => ?_⟩
          · rw [string_append_left_cancel hkey]
          · exfalso
            have h1 : "./" ++ (e'.name ++ ".cjs") = "./" ++ e.name := by
              rw [← String.append_assoc]
              exact hkey
            exact hcoll e (List.mem_cons_self e t) e' (List.mem_cons_of_mem e he')
              (string_append_left_cancel h1).symm
      · apply foldl_js_preserve
        · show objGet (objSet (objSet acc.2 ("./" ++ e.name) (esmExportObj e.name))
            ("./" ++ e.name ++ ".cjs") (cjsExportObj e.name))
            ("./" ++ e.name ++ ".cjs") = _
          rw [objGet_objSet_self]
        · intro e' he'
          refine ⟨fun hkey => ?_, fun hkey => ?_⟩
          · exfalso
            have h1 : "./" ++ e'.name = "./" ++ (e.name ++ ".cjs") := by
              rw [hkey, String.append_assoc]
            exact hcoll e' (List.mem_cons_of_mem e he') e (List.mem_cons_self e t)
              (string_append_left_cancel h1)
          · rw [string_append_left_cancel (string_append_right_cancel hkey)]
    · rw [List.foldl_cons]
      exact ih _ het
        (fun e1 h1 e2 h2 =>
          hcoll e1 (List.mem_cons_of_mem a h1) e2 (List.mem_cons_of_mem a h2))

/-- C2 counterexample: with the two `jsFile` entries named `"a"` and
`"a.cjs"` (in that order), the later entry's primary key `"./a.cjs"`
overwrites the first entry's CJS key, so `exports["./a.cjs"]` ends up as the
ESM-style object for `"a.cjs"` rather than the claimed CJS-style object for
`"a"`. -/
theorem exports_rewrite_counterexample :
    objGet (exposedState [] []
        [⟨"a", "./dist/a", "default export", none⟩,
         ⟨"a.cjs", "./dist/a.cjs", "default export", none⟩]).2 ("./" ++ "a" ++ ".cjs")
      = some (esmExportObj "a.cjs")
    ∧ objGet (exposedState [] []
        [⟨"a", "./dist/a", "default export", none⟩,
         ⟨"a.cjs", "./dist/a.cjs", "default export", none⟩]).2 ("./" ++ "a" ++ ".cjs")
      ≠ some (cjsExportObj "a") := by
  have h1 : objGet (exposedState [] []
      [⟨"a", "./dist/a", "default export", none⟩,
       ⟨"a.cjs", "./dist/a.cjs", "default export", none⟩]).2 ("./" ++ "a" ++ ".cjs")
      = some (esmExportObj "a.cjs") := rfl
  refine ⟨h1, ?_⟩
  rw [h1]
  simp [esmExportObj, cjsExportObj]

/-- C2 (amended): provided no `jsFile` entry's name equals another entry's
name with `".cjs"` appended, `registerExposedFiles` rewrites the metadata so
that `files` is exactly `["dist"]` followed by the `customConfig` file lists
and then the four generated filenames of each `jsFile` entry (in entry
order, customConfig then staticFile then jsFile), `exports` is the object
accumulated by the three loops, and for every `JsFileEntry` named `n`,
`exports["./" ++ n]` has `import`/`require` pointing at the `.esm.js`
artifact and `types` at `.d.ts`, while `exports["./" ++ n ++ ".cjs"]` has
`import`/`require` pointing at the `.js` artifact and `types` at `.d.ts`. -/
theorem exports_rewrite_spec (pkg : List (String × JVal))
    (customConfig : List CustomConfigEntry) (staticFiles : List StaticFileEntry)
    (jsFiles : List JsFileEntry)
    (hcoll : ∀ e1 ∈ jsFiles, ∀ e2 ∈ jsFiles, e1.name ≠ e2.name ++ ".cjs") :
    objGet (registerExposedFiles pkg customConfig staticFiles jsFiles) "files"
      = some (.jarr ((["dist"] ++ customConfig.flatMap (fun i => i.filesConfig)
          ++ jsFiles.flatMap (fun i => fourFileNames i.name)).map .jstr))
    ∧ objGet (registerExposedFiles pkg customConfig staticFiles jsFiles) "exports"
        = some (.jobj (exposedState customConfig staticFiles jsFiles).2)
    ∧ ∀ e ∈ jsFiles,
        objGet (exposedState customConfig staticFiles jsFiles).2 ("./" ++ e.name)
          = some (esmExportObj e.name)
        ∧ objGet (exposedState customConfig staticFiles jsFiles).2
            ("./" ++ e.name ++ ".cjs") = some (cjsExportObj e.name) := by
  refine ⟨?_, ?_, ?_⟩
  · rw [registerExposedFiles, objGet_objSet_ne _ _ _ _ (by decide), objGet_objSet_self]
    have h1 : (exposedState customConfig staticFiles jsFiles).1
        = ["dist"] ++ customConfig.flatMap (fun i => i.filesConfig)
            ++ jsFiles.flatMap (fun i => fourFileNames i.name) := by
      rw [exposedState, foldl_js_files, foldl_static_files, foldl_custom_files]
    rw [h1]
  · rw [registerExposedFiles, objGet_objSet_self]
  · intro e he
    exact foldl_js_lookup jsFiles _ e he hcoll

/-- C2 witness: one custom, one static and one js entry. -/
theorem exports_rewrite_spec_witness :
    objGet (registerExposedFiles [("name", .jstr "p")]
        [⟨".", .jstr "./dist/index.js", ["README.md"]⟩]
        [⟨"styles", "./dist/styles.css"⟩]
        [⟨"api", "./dist/api", "default export", none⟩]) "files"
      = some (.jarr ((["dist"]
          ++ [(⟨".", .jstr "./dist/index.js", ["README.md"]⟩ : CustomConfigEntry)].flatMap
              (fun i => i.filesConfig)
          ++ [(⟨"api", "./dist/api", "default export", none⟩ : JsFileEntry)].flatMap
              (fun i => fourFileNames i.name)).map .jstr))
    ∧ objGet (exposedState [⟨".", .jstr "./dist/index.js", ["README.md"]⟩]
        [⟨"styles", "./dist/styles.css"⟩]
        [⟨"api", "./dist/api", "default export", none⟩]).2 ("./" ++ "api")
      = some (esmExportObj "api") := by
  have h := exports_rewrite_spec [("name", .jstr "p")]
    [⟨".", .jstr "./dist/index.js", ["README.md"]⟩]
    [⟨"styles", "./dist/styles.css"⟩]
    [⟨"api", "./dist/api", "default export", none⟩]
    (by decide)
  exact ⟨h.1, (h.2.2 _ (List.mem_cons_self _ _)).1⟩

/-! ### C7: descriptor field defaults -/

/-- C7 counterexample: sync-file.cjs destructures the three descriptor
fields with no defaults, so a descriptor whose `custom-config` field is
absent makes the run throw (`undefined.forEach`), modelled as `none` —
it does not proceed over an empty sequence. -/
theorem descriptor_defaults_counterexample :
    syncFileRun ⟨some [], some [], none⟩ [] [] = none := rfl

/-- C7 (amended): post-build.cjs defaults an absent `js-file` field to the
empty list and generation proceeds without error over it; sync-file.cjs
applies no defaults, so a descriptor missing any of the three fields makes
its run throw a TypeError (modelled as `none`), while a descriptor with all
three fields present proceeds normally. -/
theorem descriptor_defaults (d : RawDescriptor) (dir : String)
    (pkg : List (String × JVal)) (ignoreLines : List String) :
    (d.jsFile = none → postBuildJsFiles d = []
      ∧ generatePublicAPI dir (postBuildJsFiles d) = ([], []))
    ∧ ((d.jsFile = none ∨ d.staticFile = none ∨ d.customConfig = none)
        → syncFileRun d pkg ignoreLines = none)
    ∧ (∀ js st cc, d = ⟨some js, some st, some cc⟩
        → syncFileRun d pkg ignoreLines
            = some (registerGITIgnoreFiles ignoreLines js,
                registerExposedFiles pkg cc st js)) := by
  obtain ⟨jf, sf, cc⟩ := d
  refine ⟨?_, ?_, ?_⟩
  · intro h
    dsimp only at h
    subst h
    exact ⟨rfl, rfl⟩
  · rintro (h | h | h) <;> dsimp only at h <;> subst h
    · cases cc <;> simp [syncFileRun]
    · cases cc <;> cases jf <;> simp [syncFileRun]
    · simp [syncFileRun]
  · intro js st cc2 h
    injection h with h1 h2 h3
    subst h1
    subst h2
    subst h3
    rfl

/-- C7 witness: a descriptor without the `js-file` field. -/
theorem descriptor_defaults_witness :
    postBuildJsFiles ⟨none, some [], some []⟩ = []
    ∧ generatePublicAPI "pkg" (postBuildJsFiles ⟨none, some [], some []⟩) = ([], [])
    ∧ syncFileRun ⟨none, some [], some []⟩ [] [] = none := by
  have h := descriptor_defaults ⟨none, some [], some []⟩ "pkg" [] []
  exact ⟨(h.1 rfl).1, (h.1 rfl).2, h.2.1 (Or.inl rfl)⟩

/-! ### C9: first CLI occurrence wins -/

theorem lookup_append_of_some (l1 l2 : List (String × Option String)) (k : String)
    (v : Option String) (h : l1.lookup k = some v) : (l1 ++ l2).lookup k = some v := by
  induction l1 with
  | nil => cases h
  | cons p t ih =>
    obtain ⟨k0, v0⟩ := p
    by_cases hk : k = k0
    · subst hk
      simp only [List.cons_append, List.lookup, beq_self_eq_true] at h ⊢
      exact h
    · have hb : (k == k0) = false := beq_eq_false_iff_ne.mpr hk
      simp only [List.cons_append, List.lookup, hb] at h ⊢
      exact ih h

theorem lookup_append_of_none (l1 l2 : List (String × Option String)) (k : String)
    (h : l1.lookup k = none) : (l1 ++ l2).lookup k = l2.lookup k := by
  induction l1 with
  | nil => rfl
  | cons p t ih =>
    obtain ⟨k0, v0⟩ := p
    by_cases hk : k = k0
    · subst hk
      simp only [List.lookup, beq_self_eq_true] at h
      cases h
    · have hb : (k == k0) = false := beq_eq_false_iff_ne.mpr hk
      simp only [List.cons_append, List.lookup, hb] at h ⊢
      exact ih h

theorem argStep_lookup (acc : List (String × Option String)) (a k : String) :
    (argStep acc a).lookup k
      = match acc.lookup k with
        | some v => some v
        | none => if argKey a = k then some (argVal a) else none := by
  by_cases hs : (acc.lookup (argKey a)).isSome
  · rw [argStep, if_pos hs]
    cases h : acc.lookup k with
    | some v => simp
    | none =>
      rw [if_neg]
      intro hk
      rw [hk, h] at hs
      simp at hs
  · rw [argStep, if_neg hs]
    cases h : acc.lookup k with
    | some v => rw [lookup_append_of_some _ _ _ _ h]
    | none =>
      rw [lookup_append_of_none _ _ _ h]
      by_cases hk : argKey a = k
      · simp [List.lookup, hk]
      · have hb : (k == argKey a) = false :=
          beq_eq_false_iff_ne.mpr (fun hh => hk hh.symm)
        simp [List.lookup, hb, hk]

theorem parse_foldl_lookup (argv : List String) (acc : List (String × Option String))
    (k : String) :
    (argv.foldl argStep acc).lookup k
      = match acc.lookup k with
        | some v => some v
        | none => (argv.find? (fun t => argKey t == k)).map argVal := by
  induction argv generalizing acc with
  | nil => cases h : acc.lookup k <;> simp [h]
  | cons a t ih =>
    rw [List.foldl_cons, ih, argStep_lookup]
    cases h : acc.lookup k with
    | some v => simp
    | none =>
      by_cases hk : argKey a = k
      · rw [if_pos hk, List.find?_cons_of_pos _ (by simp [hk])]
        simp
      · rw [if_neg hk, List.find?_cons_of_neg _ (by simp [hk])]

/-- C9: for every CLI argument list, the parsed map retains the value of the
first occurrence of each `--flag` key and discards later occurrences; in
particular with two `--file-name` arguments the first value is kept. -/
theorem cli_first_occurrence_wins (argv : List String) (k : String) :
    (parseArguments argv).lookup k
      = (argv.find? (fun t => argKey t == k)).map argVal
    ∧ (parseArguments ["--file-name=a", "--file-name=b"]).lookup "--file-name"
        = some (some "a") := by
  constructor
  · have h := parse_foldl_lookup argv [] k
    simpa [parseArguments, List.lookup] using h
  · decide
